import Mathlib

/-!
Verification of the campground-booking reservation core described in the
repository's design specification against a shallow embedding.

The repository's visible source (`src/routes/campgrounds.js`) contains only
route declarations and API documentation; the reservation admission engine,
lifecycle manager, interval index and tag-similarity ranker live in
controllers that are imported there but not part of the visible source.
Those components are therefore modelled from the specification text
(each such definition carries a `Modelled from the spec:` comment), while
the route-authorization layer is embedded directly from the route
declarations in `src/routes/campgrounds.js`.

Dates and times are modelled as natural numbers (days / abstract ticks);
date ranges are half-open `[start, end)` as the specification demands.
-/

/-- Modelled from the spec: reservation status
(`status ∈ {Pending, Confirmed, Cancelled, Expired}`, §3). -/
inductive RStatus where
  | pending
  | confirmed
  | cancelled
  | expired
deriving DecidableEq, Repr

/-- Modelled from the spec: a reservation record (§3): identity,
`campgroundId`, `userId`, half-open `dateRange` = [startDate, endDate),
status, `count` of reserved units, and `createdAt`. -/
structure Reservation where
  rid : Nat
  campgroundId : Nat
  userId : Nat
  startDate : Nat
  endDate : Nat
  status : RStatus
  count : Nat
  createdAt : Nat
deriving DecidableEq, Repr

/-- Modelled from the spec: a campground (§3): identity, positive capacity
`maxReservations`, a set of tags, and a rating (used only for the
tie-break of the similarity ranker, §4.4). -/
structure Campground where
  cgid : Nat
  maxReservations : Nat
  tags : List Nat
  rating : Nat
deriving DecidableEq, Repr

/-- Modelled from the spec: the mutable core state: the campground catalog,
the reservation set (system of record), and a fresh-id counter.  The
Interval Index is a derived cache reconstructible from the reservations
(§3), so it is represented by the derived functions below rather than by
a separate field. -/
structure SysState where
  campgrounds : List Campground
  reservations : List Reservation
  nextId : Nat
deriving DecidableEq, Repr

/-- Modelled from the spec: error taxonomy of §7 (the subset reached by the
operations modelled here). -/
inductive RError where
  | validationError
  | notFound
  | capacityExceeded
  | invalidTransition
deriving DecidableEq, Repr

/-- A status counts toward occupancy when it is Pending or Confirmed (§4.1). -/
def RStatus.isActive : RStatus → Bool
  | .pending => true
  | .confirmed => true
  | .cancelled => false
  | .expired => false

/-- `r` covers instant `t` when `startDate ≤ t < endDate` (half-open). -/
def coversB (r : Reservation) (t : Nat) : Bool :=
  decide (r.startDate ≤ t) && decide (t < r.endDate)

/-- Modelled from the spec: the Interval Index entries of a campground, derived
from the reservation set: the Pending/Confirmed reservations of that
campground (§3, §4.1). -/
def entriesOf (l : List Reservation) (cid : Nat) : List Reservation :=
  l.filter (fun r => r.campgroundId == cid && r.status.isActive)

/-- Occupancy of campground `cid` at instant `t`: the sum of `count` over
active entries covering `t`. -/
def occAt (l : List Reservation) (cid t : Nat) : Nat :=
  (((entriesOf l cid).filter (fun r => coversB r t)).map Reservation.count).sum

/-- Interval Index of a state (derived cache, §3). -/
def indexEntries (s : SysState) (cid : Nat) : List Reservation :=
  entriesOf s.reservations cid

/-- Occupancy at an instant, on a state. -/
def occupancyAt (s : SysState) (cid t : Nat) : Nat :=
  occAt s.reservations cid t

/-- Modelled from the spec: `query(campgroundId, range) → peakOccupancy`
(§4.1): the maximum simultaneous reserved-unit count at any instant of the
half-open query range `[qs, qe)`. -/
def peakOccupancy (s : SysState) (cid qs qe : Nat) : Nat :=
  ((List.range (qe - qs)).map (fun i => occupancyAt s cid (qs + i))).foldr max 0

/-- The contribution of a single reservation record to the occupancy of
campground `cid` at instant `t`. -/
def contribAt (cid t : Nat) (r : Reservation) : Nat :=
  if r.campgroundId = cid ∧ r.status.isActive = true ∧ coversB r t = true then r.count else 0

theorem occAt_eq_sum (l : List Reservation) (cid t : Nat) :
    occAt l cid t = (l.map (contribAt cid t)).sum := by
  induction l with
  | nil => rfl
  | cons r l ih =>
    simp only [occAt, entriesOf, List.filter_cons, List.map_cons, List.sum_cons, contribAt]
    by_cases h1 : r.campgroundId = cid
    · by_cases h2 : r.status.isActive = true
      · simp only [h1, h2, beq_self_eq_true, Bool.and_self, if_pos, and_true]
        by_cases h3 : coversB r t = true
        · simpa [h1, h2, h3, occAt, entriesOf] using congrArg (fun n => r.count + n) ih
        · simpa [h1, h2, h3, occAt, entriesOf] using ih
      · simpa [h1, h2, occAt, entriesOf] using ih
    · simpa [h1, occAt, entriesOf] using ih

/-- Any member of a list is bounded by the fold of `max` over it. -/
theorem mem_le_foldr_max (l : List Nat) (x : Nat) (hx : x ∈ l) :
    x ≤ l.foldr max 0 := by
  induction l with
  | nil => cases hx
  | cons a L ih =>
    rcases List.mem_cons.1 hx with h | h
    · exact h ▸ Nat.le_max_left a (L.foldr max 0)
    · exact le_trans (ih h) (Nat.le_max_right a (L.foldr max 0))

/-- Every instant of the query range is bounded by the peak. -/
theorem occupancyAt_le_peak (s : SysState) (cid qs qe t : Nat)
    (h1 : qs ≤ t) (h2 : t < qe) :
    occupancyAt s cid t ≤ peakOccupancy s cid qs qe := by
  refine mem_le_foldr_max _ _ ?_
  refine List.mem_map.2 ⟨t - qs, List.mem_range.2 (by omega), ?_⟩
  congr 1
  omega

/-- A fold of `max` over a list of bounded numbers is bounded. -/
theorem foldr_max_le (l : List Nat) (M : Nat) (h : ∀ x ∈ l, x ≤ M) :
    l.foldr max 0 ≤ M := by
  induction l with
  | nil => exact Nat.zero_le M
  | cons a l ih =>
    simp only [List.foldr_cons]
    exact max_le (h a (List.mem_cons_self a l)) (ih fun x hx => h x (List.mem_cons_of_mem a hx))

/-- Campground lookup by id (first match in the catalog). -/
def lookupCg (s : SysState) (cid : Nat) : Option Campground :=
  s.campgrounds.find? (fun c => c.cgid == cid)

/-- Modelled from the spec: `requestReservation(campgroundId, dateRange, count,
userId) → Reservation | Rejected` (§4.2).  Preconditions are checked first
(`start < end`, `count ≥ 1`, campground exists); then the Interval Index is
queried for `peakOccupancy` over the range; if `peakOccupancy + count >
maxReservations` the request is rejected with `CapacityExceeded` and
nothing is mutated; otherwise a Pending reservation is created and inserted
(the per-campground admission lock of §5 serializes this check-then-act
sequence, so it is modelled as one atomic state transformation). -/
def requestReservation (s : SysState) (cid qs qe cnt uid now : Nat) :
    Except RError Reservation × SysState :=
  if qs < qe then
    if 1 ≤ cnt then
      match lookupCg s cid with
      | none => (Except.error RError.notFound, s)
      | some cg =>
        if cg.maxReservations < peakOccupancy s cid qs qe + cnt then
          (Except.error RError.capacityExceeded, s)
        else
          let r : Reservation :=
            ⟨s.nextId, cid, uid, qs, qe, RStatus.pending, cnt, now⟩
          (Except.ok r,
            ⟨s.campgrounds, r :: s.reservations, s.nextId + 1⟩)
    else (Except.error RError.validationError, s)
  else (Except.error RError.validationError, s)

/-- Reservation lookup by id (first match). -/
def lookupRes (s : SysState) (rid : Nat) : Option Reservation :=
  s.reservations.find? (fun r => r.rid == rid)

/-- Modelled from the spec: `confirm(reservationId)` (§4.2): Pending →
Confirmed; idempotent if already Confirmed; fails with `InvalidTransition`
if Cancelled/Expired. -/
def confirm (s : SysState) (rid : Nat) : Except RError RStatus × SysState :=
  match lookupRes s rid with
  | none => (Except.error RError.notFound, s)
  | some r =>
    match r.status with
    | RStatus.pending =>
        (Except.ok RStatus.confirmed,
          ⟨s.campgrounds,
           s.reservations.map (fun x =>
             if x.rid = rid then { x with status := RStatus.confirmed } else x),
           s.nextId⟩)
    | RStatus.confirmed => (Except.ok RStatus.confirmed, s)
    | RStatus.cancelled => (Except.error RError.invalidTransition, s)
    | RStatus.expired => (Except.error RError.invalidTransition, s)

/-- Modelled from the spec: `cancel(reservationId)` (§4.2): Pending/Confirmed
→ Cancelled, removing the Interval Index entry; idempotent on
already-Cancelled; fails with `InvalidTransition` on Expired. -/
def cancel (s : SysState) (rid : Nat) : Except RError RStatus × SysState :=
  match lookupRes s rid with
  | none => (Except.error RError.notFound, s)
  | some r =>
    match r.status with
    | RStatus.pending =>
        (Except.ok RStatus.cancelled,
          ⟨s.campgrounds,
           s.reservations.map (fun x =>
             if x.rid = rid then { x with status := RStatus.cancelled } else x),
           s.nextId⟩)
    | RStatus.confirmed =>
        (Except.ok RStatus.cancelled,
          ⟨s.campgrounds,
           s.reservations.map (fun x =>
             if x.rid = rid then { x with status := RStatus.cancelled } else x),
           s.nextId⟩)
    | RStatus.cancelled => (Except.ok RStatus.cancelled, s)
    | RStatus.expired => (Except.error RError.invalidTransition, s)

/-- Modelled from the spec: the expiry condition of the Lifecycle Manager's
sweep (§4.3): a Pending reservation older than the TTL, or a Confirmed
reservation whose range has fully elapsed (`end ≤ now`). -/
def expiresNow (ttl now : Nat) (r : Reservation) : Bool :=
  (decide (r.status = RStatus.pending) && decide (r.createdAt + ttl < now)) ||
  (decide (r.status = RStatus.confirmed) && decide (r.endDate ≤ now))

/-- One reservation's update under the sweep. -/
def sweepStep (ttl now : Nat) (r : Reservation) : Reservation :=
  if expiresNow ttl now r then { r with status := RStatus.expired } else r

/-- Modelled from the spec: `sweepExpired(now) → list of expired Reservation
ids` (§4.3), with the TTL passed explicitly: expires the qualifying
Pending/Confirmed reservations and returns their ids; index entries are
removed implicitly because the index is derived from the reservation set. -/
def sweepExpired (s : SysState) (ttl now : Nat) : List Nat × SysState :=
  ((s.reservations.filter (expiresNow ttl now)).map Reservation.rid,
   ⟨s.campgrounds, s.reservations.map (sweepStep ttl now), s.nextId⟩)

/-- Modelled from the spec: the capacity invariant (§3, §8): for every
campground in the catalog and every instant, the occupancy never exceeds
`maxReservations`. -/
def capacityOk (s : SysState) : Prop :=
  ∀ c ∈ s.campgrounds, ∀ t : Nat, occupancyAt s c.cgid t ≤ c.maxReservations

/-- Number of shared tags between the source campground and another (§4.4). -/
def sharedTagCount (src c : Campground) : Nat :=
  (src.tags.inter c.tags).length

/-- Modelled from the spec: the similarity ranking order of §4.4, as a
boolean: higher shared-tag count first, ties broken by rating descending,
then id ascending. -/
def rankLeB (src a b : Campground) : Bool :=
  decide (sharedTagCount src b < sharedTagCount src a) ||
  (decide (sharedTagCount src a = sharedTagCount src b) &&
    (decide (b.rating < a.rating) ||
     (decide (a.rating = b.rating) && decide (a.cgid ≤ b.cgid))))

/-- The ranking order as a relation. -/
def rankLe (src a b : Campground) : Prop :=
  rankLeB src a b = true

instance (src : Campground) : DecidableRel (rankLe src) :=
  fun a b => inferInstanceAs (Decidable (rankLeB src a b = true))

/-- Modelled from the spec: `similarTo(campgroundId, limit) → ordered sequence
of campgroundId` (§4.4, the `similar2` route of
`src/routes/campgrounds.js`): `NotFound` when the source campground does
not exist; otherwise the other campgrounds with at least one shared tag,
sorted descending by overlap with the deterministic tie-break, truncated
to `limit`, returned by id. -/
def similarTo (s : SysState) (cid limit : Nat) : Except RError (List Nat) :=
  match lookupCg s cid with
  | none => Except.error RError.notFound
  | some src =>
    let others := s.campgrounds.filter
      (fun c => decide (c.cgid ≠ cid) && decide (1 ≤ sharedTagCount src c))
    Except.ok (((List.insertionSort (rankLe src) others).map Campground.cgid).take limit)

/-- Modelled from the spec: running `n` identical unit reservation requests
(`count = 1`, common range, same campground) one after another — the
per-campground admission lock of §5 serializes contending requests, so an
interleaved execution is a sequential one.  Returns the final state and
the number of `CapacityExceeded` rejections. -/
def runUnit (cid qs qe uid now : Nat) : Nat → SysState → SysState × Nat
  | 0, s => (s, 0)
  | Nat.succ n, s =>
    ((runUnit cid qs qe uid now n (requestReservation s cid qs qe 1 uid now).2).1,
     (runUnit cid qs qe uid now n (requestReservation s cid qs qe 1 uid now).2).2 +
       (match (requestReservation s cid qs qe 1 uid now).1 with
        | Except.error RError.capacityExceeded => 1
        | _ => 0))

/-- A state holding one campground (id 0, capacity `k`) and `m` identical
active unit reservations over `[qs, qe)`, as produced by admitting `m`
unit requests in sequence. -/
def uniformState (k qs qe uid now m : Nat) : SysState :=
  ⟨[⟨0, k, [], 0⟩],
   ((List.range m).reverse).map
     (fun i => ⟨i, 0, uid, qs, qe, RStatus.pending, 1, now⟩),
   m⟩

/-- Number of Pending/Confirmed reservations of a campground. -/
def countActive (s : SysState) (cid : Nat) : Nat :=
  (indexEntries s cid).length

/-- The roles the authentication layer distinguishes for campground routes. -/
inductive Role where
  | admin
  | user
deriving DecidableEq, Repr

/-- The controller functions reached by the campground router
(`src/routes/campgrounds.js`, lines 2-8 and 638-643). -/
inductive HFun where
  | getCampgrounds
  | getCampground
  | createCampground
  | updateCampground
  | deleteCampground
deriving DecidableEq, Repr

/-- One element of an Express handler chain: the `protect` authentication
middleware, the `authorize(role)` middleware, or a terminal controller. -/
inductive Handler where
  | protect
  | authorize (role : Role)
  | controller (f : HFun)
deriving DecidableEq, Repr

/-- HTTP methods used by the campground router. -/
inductive HMethod where
  | get
  | post
  | put
  | delete
deriving DecidableEq, Repr

/-- Route paths of the campground router: `/` and `/:id`. -/
inductive RPath where
  | root
  | byId
deriving DecidableEq, Repr

/-- One route registration: method, path, handler chain. -/
structure Route where
  method : HMethod
  path : RPath
  chain : List Handler
deriving DecidableEq, Repr

/-- The campground router as declared in `src/routes/campgrounds.js`,
lines 638-643:
`router.route(sl).get(getCampgrounds).post(protect, authorize(admin), createCampground)` and
`router.route(slid).get(getCampground).put(protect, authorize(admin), updateCampground).delete(protect, authorize(admin), deleteCampground)`. -/
def campgroundRouter : List Route :=
  [⟨HMethod.get, RPath.root, [Handler.controller HFun.getCampgrounds]⟩,
   ⟨HMethod.post, RPath.root,
     [Handler.protect, Handler.authorize Role.admin,
      Handler.controller HFun.createCampground]⟩,
   ⟨HMethod.get, RPath.byId, [Handler.controller HFun.getCampground]⟩,
   ⟨HMethod.put, RPath.byId,
     [Handler.protect, Handler.authorize Role.admin,
      Handler.controller HFun.updateCampground]⟩,
   ⟨HMethod.delete, RPath.byId,
     [Handler.protect, Handler.authorize Role.admin,
      Handler.controller HFun.deleteCampground]⟩]

/-- The authentication context of an incoming request: `none` when no valid
credential is presented, `some role` otherwise. -/
abbrev AuthCtx : Type := Option Role

/-- Semantics of a handler chain: `protect` stops unauthenticated requests,
`authorize role` stops requests whose role differs, a controller is the
function finally invoked (`some f`); `none` means no controller runs. -/
def runChain : List Handler → AuthCtx → Option HFun
  | [], _ => none
  | Handler.protect :: rest, auth =>
    match auth with
    | none => none
    | some r => runChain rest (some r)
  | Handler.authorize role :: rest, auth =>
    match auth with
    | none => none
    | some r => if r = role then runChain rest auth else none
  | Handler.controller f :: _, _ => some f

/-- The three campground mutations. -/
def isMutation : HFun → Bool
  | HFun.createCampground => true
  | HFun.updateCampground => true
  | HFun.deleteCampground => true
  | _ => false

theorem occAt_cons (r : Reservation) (l : List Reservation) (cid t : Nat) :
    occAt (r :: l) cid t = contribAt cid t r + occAt l cid t := by
  simp [occAt_eq_sum]

theorem occAt_map_le (l : List Reservation) (f : Reservation → Reservation) (cid t : Nat)
    (h : ∀ r ∈ l, contribAt cid t (f r) ≤ contribAt cid t r) :
    occAt (l.map f) cid t ≤ occAt l cid t := by
  rw [occAt_eq_sum, occAt_eq_sum, List.map_map]
  exact List.sum_le_sum h

theorem peak_eq_zero_of_entries_nil (s : SysState) (cid qs qe : Nat)
    (h : entriesOf s.reservations cid = []) : peakOccupancy s cid qs qe = 0 := by
  refine Nat.le_zero.1 (foldr_max_le _ 0 ?_)
  intro x hx
  rcases List.mem_map.1 hx with ⟨i, _, rfl⟩
  simp [occupancyAt, occAt, h]

/-- C9: every Interval Index operation is a total function over its domain
(in this embedding `query`/`insert`/`remove` are total Lean functions by
construction), and a campground with no entries in the index — in
particular an unknown `campgroundId`, which owns no reservations — yields
peak occupancy 0 for every query range. -/
theorem c9_index_total_empty_peak_zero :
    (∀ (s : SysState) (cid qs qe : Nat), indexEntries s cid = [] →
      peakOccupancy s cid qs qe = 0) ∧
    (∀ (s : SysState) (cid qs qe : Nat), (∀ r ∈ s.reservations, r.campgroundId ≠ cid) →
      peakOccupancy s cid qs qe = 0) := by
  constructor
  · intro s cid qs qe h
    exact peak_eq_zero_of_entries_nil s cid qs qe h
  · intro s cid qs qe h
    refine peak_eq_zero_of_entries_nil s cid qs qe ?_
    refine List.filter_eq_nil_iff.2 ?_
    intro r hr
    simp only [Bool.and_eq_true, beq_iff_eq, not_and]
    intro hc
    exact absurd hc (h r hr)

def c9State : SysState := ⟨[], [⟨0, 5, 1, 0, 9, RStatus.pending, 1, 0⟩], 1⟩

theorem c9_witness : peakOccupancy c9State 3 0 4 = 0 :=
  c9_index_total_empty_peak_zero.1 c9State 3 0 4 (by decide)

/-- `r` covers instant `t`: `startDate ≤ t < endDate` (half-open, §4.1). -/
def covers (r : Reservation) (t : Nat) : Prop :=
  r.startDate ≤ t ∧ t < r.endDate

/-- C4: date ranges are half-open `[start, end)`: a reservation ending on day
D and one starting on day D share no instant, their joint occupancy at any
instant never exceeds the larger single contribution, and hence any
Interval Index query over a state holding just the two of them is bounded
by that larger contribution — they never jointly exceed it in an
admission decision. -/
theorem c4_half_open_no_conflict :
    (∀ (r1 r2 : Reservation) (D t : Nat), r1.endDate = D → r2.startDate = D →
      ¬(covers r1 t ∧ covers r2 t)) ∧
    (∀ (r1 r2 : Reservation) (cid t : Nat), r1.endDate = r2.startDate →
      occAt [r1, r2] cid t ≤ max r1.count r2.count) ∧
    (∀ (cgs : List Campground) (r1 r2 : Reservation) (n cid qs qe : Nat),
      r1.endDate = r2.startDate →
      peakOccupancy ⟨cgs, [r1, r2], n⟩ cid qs qe ≤ max r1.count r2.count) := by
  have hocc : ∀ (r1 r2 : Reservation) (cid t : Nat), r1.endDate = r2.startDate →
      occAt [r1, r2] cid t ≤ max r1.count r2.count := by
    intro r1 r2 cid t hD
    rw [occAt_eq_sum]
    simp only [List.map_cons, List.map_nil, List.sum_cons, List.sum_nil, contribAt]
    split_ifs with h1 h2 h2
    · exfalso
      have hc1 := of_decide_eq_true (Bool.and_elim_left h1.2.2)
      have hc1' := of_decide_eq_true (Bool.and_elim_right h1.2.2)
      have hc2 := of_decide_eq_true (Bool.and_elim_left h2.2.2)
      have hc2' := of_decide_eq_true (Bool.and_elim_right h2.2.2)
      omega
    · have := Nat.le_max_left r1.count r2.count
      omega
    · have := Nat.le_max_right r1.count r2.count
      omega
    · omega
  refine ⟨?_, hocc, ?_⟩
  · intro r1 r2 D t h1 h2 hcov
    rcases hcov with ⟨⟨_, hb⟩, ⟨hc, _⟩⟩
    omega
  · intro cgs r1 r2 n cid qs qe hD
    refine foldr_max_le _ _ ?_
    intro x hx
    rcases List.mem_map.1 hx with ⟨i, _, rfl⟩
    exact hocc r1 r2 cid (qs + i) hD

theorem c4_witness :
    ¬(covers ⟨0, 0, 0, 1, 6, RStatus.pending, 1, 0⟩ 6 ∧
      covers ⟨1, 0, 0, 6, 9, RStatus.pending, 1, 0⟩ 6) :=
  c4_half_open_no_conflict.1 ⟨0, 0, 0, 1, 6, RStatus.pending, 1, 0⟩
    ⟨1, 0, 0, 6, 9, RStatus.pending, 1, 0⟩ 6 6 rfl rfl

/-- The scenario campground of §8: `maxReservations = 2`. -/
def scenarioCg : Campground := ⟨0, 2, [], 0⟩

/-- Scenario state: reservation A books days `[1, 5)` (2024-06-01 to
2024-06-05, days numbered within June 2024). -/
def scenarioS0 : SysState :=
  ⟨[scenarioCg], [⟨100, 0, 1, 1, 5, RStatus.pending, 1, 0⟩], 101⟩

/-- Reservation B of the scenario: `[4, 8)` (2024-06-04 to 2024-06-08). -/
def scenarioResB : Reservation := ⟨101, 0, 2, 4, 8, RStatus.pending, 1, 0⟩

/-- The state after B is admitted. -/
def scenarioS1 : SysState :=
  ⟨[scenarioCg], scenarioResB :: scenarioS0.reservations, 102⟩

/-- C2: under the preconditions (`start < end`, `count ≥ 1`, campground
exists), `requestReservation` rejects with `CapacityExceeded` leaving the
state unchanged exactly when `peakOccupancy + count > maxReservations`,
and otherwise creates a Pending reservation, inserts it into the Interval
Index and returns it; concretely, with capacity 2 and an existing booking
`[1, 5)`, the request `[4, 8)` with count 1 is accepted and the subsequent
request `[4, 6)` with count 1 is rejected with `CapacityExceeded`. -/
theorem c2_requestReservation_contract :
    (∀ (s : SysState) (cid qs qe cnt uid now : Nat) (cg : Campground),
      qs < qe → 1 ≤ cnt → lookupCg s cid = some cg →
      ((requestReservation s cid qs qe cnt uid now =
          (Except.error RError.capacityExceeded, s) ↔
        cg.maxReservations < peakOccupancy s cid qs qe + cnt) ∧
       (¬ cg.maxReservations < peakOccupancy s cid qs qe + cnt →
        ∃ r : Reservation,
          requestReservation s cid qs qe cnt uid now =
            (Except.ok r, ⟨s.campgrounds, r :: s.reservations, s.nextId + 1⟩) ∧
          r.status = RStatus.pending ∧ r.campgroundId = cid ∧
          r.startDate = qs ∧ r.endDate = qe ∧ r.count = cnt ∧
          r ∈ indexEntries (requestReservation s cid qs qe cnt uid now).2 cid))) ∧
    (requestReservation scenarioS0 0 4 8 1 2 0 = (Except.ok scenarioResB, scenarioS1)) ∧
    (requestReservation scenarioS1 0 4 6 1 3 0 =
      (Except.error RError.capacityExceeded, scenarioS1)) := by
  refine ⟨?_, rfl, rfl⟩
  intro s cid qs qe cnt uid now cg hq hc hcg
  simp only [requestReservation, if_pos hq, if_pos hc, hcg]
  by_cases hcap : cg.maxReservations < peakOccupancy s cid qs qe + cnt
  · simp [hcap]
  · simp only [if_neg hcap]
    constructor
    · constructor
      · intro h
        exact absurd (congrArg Prod.fst h) (by simp)
      · intro h
        exact absurd h hcap
    · intro _
      refine ⟨⟨s.nextId, cid, uid, qs, qe, RStatus.pending, cnt, now⟩,
        rfl, rfl, rfl, rfl, rfl, rfl, ?_⟩
      refine List.mem_filter.2 ⟨List.mem_cons_self _ _, ?_⟩
      simp [RStatus.isActive]

theorem c2_witness :
    requestReservation scenarioS1 0 4 6 1 3 0 =
        (Except.error RError.capacityExceeded, scenarioS1) ↔
      scenarioCg.maxReservations < peakOccupancy scenarioS1 0 4 6 + 1 :=
  (c2_requestReservation_contract.1 scenarioS1 0 4 6 1 3 0 scenarioCg
    (by decide) (by decide) (by decide)).1

/-- Updating the status of the reservations matching `rid` moves the first
match of a successful lookup along. -/
theorem find?_setStatus (l : List Reservation) (rid : Nat) (st : RStatus)
    (r : Reservation) (h : l.find? (fun x => x.rid == rid) = some r) :
    (l.map (fun x => if x.rid = rid then { x with status := st } else x)).find?
        (fun x => x.rid == rid) = some { r with status := st } := by
  induction l with
  | nil => simp at h
  | cons a l ih =>
    by_cases ha : a.rid = rid
    · rw [List.find?_cons_of_pos l (by simpa using ha)] at h
      cases h
      simp only [List.map_cons, if_pos ha]
      rw [List.find?_cons_of_pos _ (by simpa using ha)]
    · rw [List.find?_cons_of_neg l (by simpa using ha)] at h
      simp only [List.map_cons, if_neg ha]
      rw [List.find?_cons_of_neg _ (by simpa using ha)]
      exact ih h

/-- C6: `confirm` moves a Pending reservation to Confirmed (campgrounds and
the other reservations untouched), is an idempotent no-op success on an
already-Confirmed reservation (so the Interval Index is unaltered), and
fails with `InvalidTransition` without any state change on a Cancelled or
Expired reservation. -/
theorem c6_confirm_transitions :
    ∀ (s : SysState) (rid : Nat) (r : Reservation), lookupRes s rid = some r →
      ((r.status = RStatus.pending →
         (confirm s rid).1 = Except.ok RStatus.confirmed ∧
         lookupRes (confirm s rid).2 rid = some { r with status := RStatus.confirmed } ∧
         (confirm s rid).2.campgrounds = s.campgrounds ∧
         ∀ x ∈ s.reservations, x.rid ≠ rid → x ∈ (confirm s rid).2.reservations) ∧
       (r.status = RStatus.confirmed →
         confirm s rid = (Except.ok RStatus.confirmed, s)) ∧
       ((r.status = RStatus.cancelled ∨ r.status = RStatus.expired) →
         confirm s rid = (Except.error RError.invalidTransition, s))) := by
  intro s rid r hr
  refine ⟨?_, ?_, ?_⟩
  · intro hst
    refine ⟨by simp [confirm, hr, hst], ?_, by simp [confirm, hr, hst], ?_⟩
    · have hfind : s.reservations.find? (fun x => x.rid == rid) = some r := hr
      simp only [confirm, lookupRes, hfind, hst]
      exact find?_setStatus s.reservations rid RStatus.confirmed r hfind
    · intro x hx hne
      simp only [confirm, hr, hst]
      exact List.mem_map.2 ⟨x, hx, by rw [if_neg hne]⟩
  · intro hst
    simp [confirm, hr, hst]
  · intro hst
    rcases hst with hst | hst <;> simp [confirm, hr, hst]

def wRes : Reservation := ⟨5, 0, 1, 10, 20, RStatus.pending, 1, 0⟩

def wS : SysState := ⟨[⟨0, 1, [], 0⟩], [wRes], 6⟩

theorem c6_witness : (confirm wS 5).1 = Except.ok RStatus.confirmed :=
  ((c6_confirm_transitions wS 5 wRes (by decide)).1 rfl).1

theorem isActive_cancelled : RStatus.cancelled.isActive = false := rfl

theorem isActive_expired : RStatus.expired.isActive = false := rfl

/-- Cancelling the reservations matching `rid` removes exactly their entries
from the derived Interval Index of every campground. -/
theorem entriesOf_map_setInactive (l : List Reservation) (rid cid : Nat) :
    entriesOf (l.map (fun x =>
        if x.rid = rid then { x with status := RStatus.cancelled } else x)) cid
      = (entriesOf l cid).filter (fun x => !(x.rid == rid)) := by
  induction l with
  | nil => rfl
  | cons a l ih =>
    simp only [entriesOf] at ih ⊢
    simp only [List.map_cons, List.filter_cons]
    by_cases ha : a.rid = rid
    · rw [if_pos ha]
      by_cases hcid : a.campgroundId = cid
      · by_cases hact : a.status.isActive = true
        · simp [hcid, hact, ha, isActive_cancelled, ih]
        · simp [hcid, hact, ha, isActive_cancelled, ih]
      · simp [hcid, ha, isActive_cancelled, ih]
    · rw [if_neg ha]
      by_cases hcid : a.campgroundId = cid
      · by_cases hact : a.status.isActive = true
        · simp [hcid, hact, ha, ih]
        · simp [hcid, hact, ha, ih]
      · simp [hcid, ha, ih]

/-- C7: `cancel` succeeds on a Pending or Confirmed reservation, setting the
status to Cancelled and removing exactly the matching entry from the
Interval Index of every campground; it is a no-op success on an
already-Cancelled reservation; and it fails with `InvalidTransition`
without state change on an Expired one. -/
theorem c7_cancel_transitions :
    ∀ (s : SysState) (rid : Nat) (r : Reservation), lookupRes s rid = some r →
      (((r.status = RStatus.pending ∨ r.status = RStatus.confirmed) →
         (cancel s rid).1 = Except.ok RStatus.cancelled ∧
         (cancel s rid).2.campgrounds = s.campgrounds ∧
         ∀ cid, indexEntries (cancel s rid).2 cid =
           (indexEntries s cid).filter (fun x => !(x.rid == rid))) ∧
       (r.status = RStatus.cancelled →
         cancel s rid = (Except.ok RStatus.cancelled, s)) ∧
       (r.status = RStatus.expired →
         cancel s rid = (Except.error RError.invalidTransition, s))) := by
  intro s rid r hr
  refine ⟨?_, ?_, ?_⟩
  · intro hst
    rcases hst with hst | hst <;>
      refine ⟨by simp [cancel, hr, hst], by simp [cancel, hr, hst], ?_⟩ <;>
      intro cid <;>
      simp only [cancel, hr, hst, indexEntries] <;>
      exact entriesOf_map_setInactive s.reservations rid cid
  · intro hst
    simp [cancel, hr, hst]
  · intro hst
    simp [cancel, hr, hst]

theorem c7_witness : (cancel wS 5).1 = Except.ok RStatus.cancelled :=
  ((c7_cancel_transitions wS 5 wRes (by decide)).1 (Or.inl rfl)).1

/-- The sweep only deactivates: entries of swept reservations disappear from
the derived Interval Index of every campground, others stay. -/
theorem entriesOf_map_sweep (l : List Reservation) (ttl now cid : Nat) :
    entriesOf (l.map (sweepStep ttl now)) cid
      = (entriesOf l cid).filter (fun r => !(expiresNow ttl now r)) := by
  induction l with
  | nil => rfl
  | cons a l ih =>
    simp only [entriesOf] at ih ⊢
    simp only [List.map_cons, List.filter_cons]
    by_cases he : expiresNow ttl now a = true
    · have hstep : sweepStep ttl now a = { a with status := RStatus.expired } := by
        simp [sweepStep, he]
      by_cases hcid : a.campgroundId = cid
      · have hact : a.status.isActive = true := by
          simp only [expiresNow, Bool.or_eq_true, Bool.and_eq_true, decide_eq_true_eq] at he
          rcases he with ⟨h, _⟩ | ⟨h, _⟩ <;> simp [h, RStatus.isActive]
        simp [hstep, hcid, hact, he, isActive_expired, ih]
      · simp [hstep, hcid, he, isActive_expired, ih]
    · have hstep : sweepStep ttl now a = a := by
        simp [sweepStep, he]
      by_cases hcid : a.campgroundId = cid
      · by_cases hact : a.status.isActive = true
        · simp [hstep, hcid, hact, he, ih]
        · simp [hstep, hcid, hact, he, ih]
      · simp [hstep, hcid, he, ih]

/-- A swept reservation no longer satisfies the expiry condition. -/
theorem expiresNow_sweepStep (ttl now : Nat) (r : Reservation) :
    expiresNow ttl now (sweepStep ttl now r) = false := by
  by_cases he : expiresNow ttl now r = true
  · simp only [expiresNow, Bool.or_eq_true, Bool.and_eq_true, decide_eq_true_eq] at he
    simp [sweepStep, expiresNow, he]
  · have h0 : expiresNow ttl now r = false := by
      cases hb : expiresNow ttl now r
      · rfl
      · exact absurd hb he
    simp [sweepStep, h0]

/-- The sweep's per-reservation update is idempotent. -/
theorem sweepStep_idem (ttl now : Nat) (r : Reservation) :
    sweepStep ttl now (sweepStep ttl now r) = sweepStep ttl now r := by
  have h := expiresNow_sweepStep ttl now r
  generalize hx : sweepStep ttl now r = x at h ⊢
  simp [sweepStep, h]

/-- The scenario campground for the sweep (§8): capacity 1. -/
def sweepCg : Campground := ⟨0, 1, [], 0⟩

/-- Sweep scenario state: one Pending reservation over `[10, 20)` created at
time 0 (two hours ago at `now = 2`, with TTL = 1 hour). -/
def sweepS : SysState :=
  ⟨[sweepCg], [⟨7, 0, 1, 10, 20, RStatus.pending, 1, 0⟩], 8⟩

/-- C8: `sweepExpired` marks Expired exactly the Pending reservations older
than the TTL and the Confirmed reservations whose range has elapsed
(`end ≤ now`), removes exactly their entries from the derived Interval
Index, returns exactly the ids of the swept reservations, is a no-op when
re-run on the already-swept state, and — in the §8 scenario with TTL 1 at
`now = 2` — frees the slot of a Pending reservation created at time 0 so
that a previously rejected overlapping request succeeds. -/
theorem c8_sweepExpired_contract :
    (∀ (ttl now : Nat) (r : Reservation),
      (sweepStep ttl now r).status = RStatus.expired ↔
        (r.status = RStatus.expired ∨
         (r.status = RStatus.pending ∧ r.createdAt + ttl < now) ∨
         (r.status = RStatus.confirmed ∧ r.endDate ≤ now))) ∧
    (∀ (s : SysState) (ttl now rid : Nat),
      rid ∈ (sweepExpired s ttl now).1 ↔
        ∃ r, r ∈ s.reservations ∧ r.rid = rid ∧ expiresNow ttl now r = true) ∧
    (∀ (s : SysState) (ttl now cid : Nat),
      indexEntries (sweepExpired s ttl now).2 cid =
        (indexEntries s cid).filter (fun r => !(expiresNow ttl now r))) ∧
    (∀ (s : SysState) (ttl now : Nat),
      sweepExpired (sweepExpired s ttl now).2 ttl now = ([], (sweepExpired s ttl now).2)) ∧
    ((requestReservation sweepS 0 10 20 1 2 2).1 = Except.error RError.capacityExceeded ∧
     (sweepExpired sweepS 1 2).1 = [7] ∧
     (requestReservation (sweepExpired sweepS 1 2).2 0 10 20 1 2 2).1 =
       Except.ok ⟨8, 0, 2, 10, 20, RStatus.pending, 1, 2⟩) := by
  refine ⟨?_, ?_, ?_, ?_, rfl, rfl, rfl⟩
  · intro ttl now r
    by_cases he : expiresNow ttl now r = true
    · have he' := he
      simp only [expiresNow, Bool.or_eq_true, Bool.and_eq_true, decide_eq_true_eq] at he'
      constructor
      · intro _
        exact Or.inr he'
      · intro _
        simp [sweepStep, he]
    · have h0 : expiresNow ttl now r = false := by
        cases hb : expiresNow ttl now r
        · rfl
        · exact absurd hb he
      have hstep : sweepStep ttl now r = r := by
        simp [sweepStep, h0]
      rw [hstep]
      constructor
      · intro h
        exact Or.inl h
      · intro h
        rcases h with h | ⟨h1, h2⟩ | ⟨h1, h2⟩
        · exact h
        · exact absurd (by simp [expiresNow, h1, h2]) he
        · exact absurd (by simp [expiresNow, h1, h2]) he
  · intro s ttl now rid
    simp only [sweepExpired, List.mem_map, List.mem_filter]
    constructor
    · rintro ⟨x, ⟨hm, he⟩, hr⟩
      exact ⟨x, hm, hr, he⟩
    · rintro ⟨x, hm, hr, he⟩
      exact ⟨x, ⟨hm, he⟩, hr⟩
  · intro s ttl now cid
    simp only [sweepExpired, indexEntries]
    exact entriesOf_map_sweep s.reservations ttl now cid
  · intro s ttl now
    simp only [sweepExpired]
    have h1 : List.filter (expiresNow ttl now) (s.reservations.map (sweepStep ttl now)) = [] := by
      rw [List.filter_eq_nil_iff]
      intro a ha
      rcases List.mem_map.1 ha with ⟨x, _, rfl⟩
      simp [expiresNow_sweepStep]
    have h2 : (s.reservations.map (sweepStep ttl now)).map (sweepStep ttl now)
        = s.reservations.map (sweepStep ttl now) := by
      rw [List.map_map]
      refine List.map_congr_left ?_
      intro x _
      exact sweepStep_idem ttl now x
    simp [h1, h2]

theorem isActive_pending : RStatus.pending.isActive = true := rfl

theorem isActive_confirmed : RStatus.confirmed.isActive = true := rfl

/-- C1: the capacity invariant — for every campground and every instant, the
summed `count` of Pending/Confirmed reservations covering the instant
never exceeds `maxReservations` — is preserved by `requestReservation`,
`confirm`, `cancel` and `sweepExpired` from any state satisfying it
(with the usual well-formedness of a document store: campground ids are
unique for admission, reservation ids are unique for `confirm`). -/
theorem c1_capacity_invariant_preserved :
    (∀ (s : SysState) (cid qs qe cnt uid now : Nat),
      (s.campgrounds.map Campground.cgid).Nodup → capacityOk s →
      capacityOk (requestReservation s cid qs qe cnt uid now).2) ∧
    (∀ (s : SysState) (rid : Nat),
      (s.reservations.map Reservation.rid).Nodup → capacityOk s →
      capacityOk (confirm s rid).2) ∧
    (∀ (s : SysState) (rid : Nat), capacityOk s → capacityOk (cancel s rid).2) ∧
    (∀ (s : SysState) (ttl now : Nat), capacityOk s →
      capacityOk (sweepExpired s ttl now).2) := by
  refine ⟨?_, ?_, ?_, ?_⟩
  · -- requestReservation
    intro s cid qs qe cnt uid now hnd hok
    simp only [requestReservation]
    by_cases hq : qs < qe
    · rw [if_pos hq]
      by_cases hc : 1 ≤ cnt
      · rw [if_pos hc]
        cases hcg : lookupCg s cid with
        | none => exact hok
        | some cg =>
          by_cases hcap : cg.maxReservations < peakOccupancy s cid qs qe + cnt
          · simp only [hcap, if_true]
            exact hok
          · simp only [hcap, if_false]
            have hmemcg : cg ∈ s.campgrounds := List.mem_of_find?_eq_some hcg
            have hcgid : cg.cgid = cid := by simpa using List.find?_some hcg
            intro c hcm t
            show occAt (⟨s.nextId, cid, uid, qs, qe, RStatus.pending, cnt, now⟩ ::
              s.reservations) c.cgid t ≤ c.maxReservations
            rw [occAt_cons]
            by_cases hcid : c.cgid = cid
            · have hceq : c = cg :=
                List.inj_on_of_nodup_map hnd hcm hmemcg (by rw [hcid, hcgid])
              subst hceq
              by_cases hcov : coversB ⟨s.nextId, cid, uid, qs, qe,
                  RStatus.pending, cnt, now⟩ t = true
              · have hc1 : contribAt c.cgid t
                    ⟨s.nextId, cid, uid, qs, qe, RStatus.pending, cnt, now⟩ = cnt := by
                  unfold contribAt
                  rw [if_pos ⟨hcid.symm, isActive_pending, hcov⟩]
                have hbound : qs ≤ t ∧ t < qe := by
                  simpa [coversB] using hcov
                have hpeak : occupancyAt s cid t ≤ peakOccupancy s cid qs qe :=
                  occupancyAt_le_peak s cid qs qe t hbound.1 hbound.2
                have hocc : occupancyAt s cid t = occAt s.reservations cid t := rfl
                rw [hc1, hcid]
                omega
              · have hc0 : contribAt c.cgid t
                    ⟨s.nextId, cid, uid, qs, qe, RStatus.pending, cnt, now⟩ = 0 := by
                  unfold contribAt
                  rw [if_neg]
                  intro hcon
                  exact hcov hcon.2.2
                rw [hc0]
                simpa using hok c hcm t
            · have hc0 : contribAt c.cgid t
                  ⟨s.nextId, cid, uid, qs, qe, RStatus.pending, cnt, now⟩ = 0 := by
                unfold contribAt
                rw [if_neg]
                intro hcon
                exact hcid hcon.1.symm
              rw [hc0]
              simpa using hok c hcm t
      · rw [if_neg hc]
        exact hok
    · rw [if_neg hq]
      exact hok
  · -- confirm
    intro s rid hnd hok
    cases hfind : lookupRes s rid with
    | none =>
      simp only [confirm, hfind]
      exact hok
    | some r =>
      have hmemr : r ∈ s.reservations := List.mem_of_find?_eq_some hfind
      have hrid : r.rid = rid := by simpa using List.find?_some hfind
      cases hst : r.status with
      | pending =>
        simp only [confirm, hfind, hst]
        intro c hcm t
        refine le_trans (occAt_map_le s.reservations _ c.cgid t ?_) (hok c hcm t)
        intro x hx
        by_cases hxr : x.rid = rid
        · have hxeq : x = r :=
            List.inj_on_of_nodup_map hnd hx hmemr (by rw [hxr, hrid])
          subst hxeq
          rw [if_pos hxr]
          unfold contribAt
          simp [coversB, isActive_confirmed, hst, isActive_pending]
        · rw [if_neg hxr]
      | confirmed =>
        simp only [confirm, hfind, hst]
        exact hok
      | cancelled =>
        simp only [confirm, hfind, hst]
        exact hok
      | expired =>
        simp only [confirm, hfind, hst]
        exact hok
  · -- cancel
    intro s rid hok
    cases hfind : lookupRes s rid with
    | none =>
      simp only [cancel, hfind]
      exact hok
    | some r =>
      have hmap : ∀ t c : Nat, ∀ x ∈ s.reservations,
          contribAt c t (if x.rid = rid then { x with status := RStatus.cancelled } else x) ≤
            contribAt c t x := by
        intro t c x _
        by_cases hxr : x.rid = rid
        · rw [if_pos hxr]
          have h0 : contribAt c t { x with status := RStatus.cancelled } = 0 := by
            unfold contribAt
            rw [if_neg]
            intro hcon
            simpa [isActive_cancelled] using hcon.2.1
          rw [h0]
          exact Nat.zero_le _
        · rw [if_neg hxr]
      cases hst : r.status with
      | pending =>
        simp only [cancel, hfind, hst]
        intro c hcm t
        exact le_trans (occAt_map_le s.reservations _ c.cgid t (hmap t c.cgid)) (hok c hcm t)
      | confirmed =>
        simp only [cancel, hfind, hst]
        intro c hcm t
        exact le_trans (occAt_map_le s.reservations _ c.cgid t (hmap t c.cgid)) (hok c hcm t)
      | cancelled =>
        simp only [cancel, hfind, hst]
        exact hok
      | expired =>
        simp only [cancel, hfind, hst]
        exact hok
  · -- sweepExpired
    intro s ttl now hok
    intro c hcm t
    refine le_trans (occAt_map_le s.reservations _ c.cgid t ?_) (hok c hcm t)
    intro x _
    by_cases he : expiresNow ttl now x = true
    · have hstep : sweepStep ttl now x = { x with status := RStatus.expired } := by
        simp [sweepStep, he]
      rw [hstep]
      have h0 : contribAt c.cgid t { x with status := RStatus.expired } = 0 := by
        unfold contribAt
        rw [if_neg]
        intro hcon
        simpa [isActive_expired] using hcon.2.1
      rw [h0]
      exact Nat.zero_le _
    · have hstep : sweepStep ttl now x = x := by
        simp [sweepStep, he]
      rw [hstep]

def c1S : SysState := ⟨[⟨0, 1, [], 0⟩], [], 1⟩

theorem c1_witness : occupancyAt (requestReservation c1S 0 2 5 1 7 0).2 0 3 ≤ 1 :=
  c1_capacity_invariant_preserved.1 c1S 0 2 5 1 7 0 (by decide)
    (by intro c hc t; simp [occupancyAt, occAt, entriesOf, c1S])
    ⟨0, 1, [], 0⟩ (by decide) 3

theorem uniformState_reservations_succ (k qs qe uid now m : Nat) :
    (uniformState k qs qe uid now (m + 1)).reservations =
      ⟨m, 0, uid, qs, qe, RStatus.pending, 1, now⟩ ::
        (uniformState k qs qe uid now m).reservations := by
  simp [uniformState, List.range_succ]

theorem sum_map_const_of (l : List Reservation) (g : Reservation → Nat) (c : Nat)
    (h : ∀ x ∈ l, g x = c) : (l.map g).sum = l.length * c := by
  induction l with
  | nil => simp
  | cons a l ih =>
    simp only [List.map_cons, List.sum_cons, List.length_cons]
    rw [h a (List.mem_cons_self a l), ih (fun x hx => h x (List.mem_cons_of_mem a hx))]
    ring

theorem occAt_uniform (k qs qe uid now m t : Nat) :
    occAt (uniformState k qs qe uid now m).reservations 0 t =
      if qs ≤ t ∧ t < qe then m else 0 := by
  rw [occAt_eq_sum]
  have hlen : (uniformState k qs qe uid now m).reservations.length = m := by
    simp [uniformState]
  by_cases hc : qs ≤ t ∧ t < qe
  · rw [if_pos hc]
    have hall : ∀ x ∈ (uniformState k qs qe uid now m).reservations,
        contribAt 0 t x = 1 := by
      intro x hx
      simp only [uniformState, List.mem_map] at hx
      rcases hx with ⟨i, _, rfl⟩
      unfold contribAt
      rw [if_pos ⟨rfl, isActive_pending, by simp [coversB, hc.1, hc.2]⟩]
    rw [sum_map_const_of _ _ 1 hall, hlen]
    omega
  · rw [if_neg hc]
    have hall : ∀ x ∈ (uniformState k qs qe uid now m).reservations,
        contribAt 0 t x = 0 := by
      intro x hx
      simp only [uniformState, List.mem_map] at hx
      rcases hx with ⟨i, _, rfl⟩
      unfold contribAt
      rw [if_neg]
      intro hcon
      apply hc
      simpa [coversB] using hcon.2.2
    rw [sum_map_const_of _ _ 0 hall]
    omega

theorem peak_uniform (k qs qe uid now m : Nat) (hq : qs < qe) :
    peakOccupancy (uniformState k qs qe uid now m) 0 qs qe = m := by
  have hval : ∀ i, i < qe - qs →
      occupancyAt (uniformState k qs qe uid now m) 0 (qs + i) = m := by
    intro i hi
    show occAt (uniformState k qs qe uid now m).reservations 0 (qs + i) = m
    rw [occAt_uniform]
    rw [if_pos ⟨Nat.le_add_right qs i, by omega⟩]
  apply Nat.le_antisymm
  · refine foldr_max_le _ m ?_
    intro x hx
    rcases List.mem_map.1 hx with ⟨i, hi, rfl⟩
    exact le_of_eq (hval i (List.mem_range.1 hi))
  · refine mem_le_foldr_max _ m ?_
    refine List.mem_map.2 ⟨0, List.mem_range.2 (by omega), ?_⟩
    exact hval 0 (by omega)

theorem requestReservation_uniform (k qs qe uid now m : Nat) (hq : qs < qe) :
    requestReservation (uniformState k qs qe uid now m) 0 qs qe 1 uid now =
      if k < m + 1 then
        (Except.error RError.capacityExceeded, uniformState k qs qe uid now m)
      else
        (Except.ok ⟨m, 0, uid, qs, qe, RStatus.pending, 1, now⟩,
          uniformState k qs qe uid now (m + 1)) := by
  have hlook : lookupCg (uniformState k qs qe uid now m) 0 = some ⟨0, k, [], 0⟩ := rfl
  have hpeak := peak_uniform k qs qe uid now m hq
  have hmax : (⟨0, k, [], 0⟩ : Campground).maxReservations = k := rfl
  simp only [requestReservation, if_pos hq, if_pos (le_refl 1), hlook, hpeak, hmax]
  by_cases hk : k < m + 1
  · rw [if_pos hk, if_pos hk]
  · rw [if_neg hk, if_neg hk]
    simp only [Prod.mk.injEq]
    constructor
    · rfl
    · refine congrArg (fun l => SysState.mk [⟨0, k, [], 0⟩] l (m + 1)) ?_
      exact (uniformState_reservations_succ k qs qe uid now m).symm

theorem countActive_uniform (k qs qe uid now m : Nat) :
    countActive (uniformState k qs qe uid now m) 0 = m := by
  have hall : ∀ x ∈ (uniformState k qs qe uid now m).reservations,
      (x.campgroundId == 0 && x.status.isActive) = true := by
    intro x hx
    simp only [uniformState, List.mem_map] at hx
    rcases hx with ⟨i, _, rfl⟩
    rfl
  show (List.filter _ (uniformState k qs qe uid now m).reservations).length = m
  rw [List.filter_eq_self.2 hall]
  simp [uniformState]

theorem runUnit_uniform (k qs qe uid now : Nat) (hq : qs < qe) :
    ∀ (n m : Nat), m ≤ k →
      runUnit 0 qs qe uid now n (uniformState k qs qe uid now m) =
        (uniformState k qs qe uid now (min (m + n) k), (m + n) - min (m + n) k) := by
  intro n
  induction n with
  | zero =>
    intro m hm
    simp only [runUnit, Prod.mk.injEq]
    constructor
    · rw [Nat.min_eq_left (by omega : m + 0 ≤ k), Nat.add_zero]
    · omega
  | succ n ih =>
    intro m hm
    simp only [runUnit]
    rw [requestReservation_uniform k qs qe uid now m hq]
    by_cases hk : k < m + 1
    · rw [if_pos hk]
      dsimp only
      rw [ih m hm]
      dsimp only
      simp only [Prod.mk.injEq]
      constructor
      · have h1 : min (m + n) k = k := by omega
        have h2 : min (m + (n + 1)) k = k := by omega
        rw [h1, h2]
      · omega
    · rw [if_neg hk]
      dsimp only
      rw [ih (m + 1) (by omega)]
      dsimp only
      simp only [Prod.mk.injEq]
      constructor
      · have h3 : m + 1 + n = m + (n + 1) := by omega
        rw [h3]
      · omega

/-- C3 (amended): running `N` serialized unit requests with fully overlapping
ranges against a fresh campground of capacity `k ≥ 1` — the per-campground
admission lock serializes every interleaving, and identical requests make
every serialization the same run — ends with exactly `min N k`
Pending/Confirmed reservations and exactly `N - k` (natural subtraction,
i.e. `N - k` when `N ≥ k`, else `0`) `CapacityExceeded` rejections. -/
theorem c3_contention_serialized :
    ∀ (N k qs qe uid now : Nat), 1 ≤ k → qs < qe →
      countActive (runUnit 0 qs qe uid now N (uniformState k qs qe uid now 0)).1 0 =
        min N k ∧
      (runUnit 0 qs qe uid now N (uniformState k qs qe uid now 0)).2 = N - k := by
  intro N k qs qe uid now hk hq
  rw [runUnit_uniform k qs qe uid now hq N 0 (by omega)]
  dsimp only
  constructor
  · rw [countActive_uniform]
    omega
  · omega

/-- C3 counterexample: a single request (`N = 1`) against capacity `k = 2`
leaves one Pending reservation, not `k = 2` as the claim's universal
reading over all `N` demands. -/
theorem c3_counterexample :
    countActive (runUnit 0 0 1 9 0 1 (uniformState 2 0 1 9 0 0)).1 0 = 1 ∧
    ¬ countActive (runUnit 0 0 1 9 0 1 (uniformState 2 0 1 9 0 0)).1 0 = 2 := by
  decide

theorem c3_witness :
    countActive (runUnit 0 3 7 9 0 5 (uniformState 2 3 7 9 0 0)).1 0 = min 5 2 ∧
    (runUnit 0 3 7 9 0 5 (uniformState 2 3 7 9 0 0)).2 = 5 - 2 :=
  c3_contention_serialized 5 2 3 7 9 0 (by decide) (by decide)

/-- Scenario campground X with tags {A, B, C} (tags as ids 1, 2, 3). -/
def simX : Campground := ⟨10, 5, [1, 2, 3], 0⟩

/-- Scenario campground Y with tags {B, C, D}. -/
def simY : Campground := ⟨20, 5, [2, 3, 4], 0⟩

/-- Scenario campground Z with tags {A}. -/
def simZ : Campground := ⟨30, 5, [1], 0⟩

/-- Scenario catalog for the similarity ranker. -/
def simS : SysState := ⟨[simX, simY, simZ], [], 0⟩

/-- C5: `similarTo` returns `NotFound` when the source campground does not
exist; otherwise it returns ids of other campgrounds each sharing at least
one tag with the source (zero-overlap filtered out), sorted by the
deterministic ranking (overlap descending, rating descending, id
ascending), truncated to `limit`, and containing every qualifying
campground when `limit` is large enough; on the §8 scenario
(X = {A,B,C} against Y = {B,C,D}, Z = {A}) the result is [Y, Z]. -/
theorem c5_similarTo_ranking :
    (∀ (s : SysState) (cid limit : Nat), lookupCg s cid = none →
      similarTo s cid limit = Except.error RError.notFound) ∧
    (∀ (s : SysState) (cid limit : Nat) (src : Campground), lookupCg s cid = some src →
      ∃ l : List Campground,
        similarTo s cid limit = Except.ok (l.map Campground.cgid) ∧
        l.length ≤ limit ∧
        (∀ c ∈ l, c ∈ s.campgrounds ∧ c.cgid ≠ cid ∧ 1 ≤ sharedTagCount src c) ∧
        l.Pairwise (rankLe src) ∧
        ((s.campgrounds.filter (fun c =>
            decide (c.cgid ≠ cid) && decide (1 ≤ sharedTagCount src c))).length ≤ limit →
          ∀ c ∈ s.campgrounds, c.cgid ≠ cid → 1 ≤ sharedTagCount src c →
            c.cgid ∈ l.map Campground.cgid)) ∧
    similarTo simS 10 5 = Except.ok [20, 30] := by
  refine ⟨?_, ?_, rfl⟩
  · intro s cid limit h
    simp [similarTo, h]
  · intro s cid limit src h
    haveI hTot : IsTotal Campground (rankLe src) := by
      constructor
      intro a b
      simp only [rankLe, rankLeB, Bool.or_eq_true, Bool.and_eq_true, decide_eq_true_eq]
      omega
    haveI hTrans : IsTrans Campground (rankLe src) := by
      constructor
      intro a b c hab hbc
      simp only [rankLe, rankLeB, Bool.or_eq_true, Bool.and_eq_true,
        decide_eq_true_eq] at hab hbc ⊢
      omega
    refine ⟨(List.insertionSort (rankLe src) (s.campgrounds.filter (fun c =>
      decide (c.cgid ≠ cid) && decide (1 ≤ sharedTagCount src c)))).take limit,
      ?_, ?_, ?_, ?_, ?_⟩
    · simp only [similarTo, h]
      rw [List.map_take]
    · rw [List.length_take]
      omega
    · intro c hc
      have hc1 : c ∈ List.insertionSort (rankLe src) (s.campgrounds.filter (fun c =>
          decide (c.cgid ≠ cid) && decide (1 ≤ sharedTagCount src c))) :=
        List.mem_of_mem_take hc
      have hc2 := (List.perm_insertionSort (rankLe src) _).mem_iff.1 hc1
      have hc3 := List.mem_filter.1 hc2
      refine ⟨hc3.1, ?_, ?_⟩
      · have := hc3.2
        simp only [Bool.and_eq_true, decide_eq_true_eq] at this
        exact this.1
      · have := hc3.2
        simp only [Bool.and_eq_true, decide_eq_true_eq] at this
        exact this.2
    · exact (List.sorted_insertionSort (rankLe src) _).sublist (List.take_sublist _ _)
    · intro hlen c hcm hne hshared
      have hlen' : (List.insertionSort (rankLe src) (s.campgrounds.filter (fun c =>
          decide (c.cgid ≠ cid) && decide (1 ≤ sharedTagCount src c)))).length =
          (s.campgrounds.filter (fun c =>
            decide (c.cgid ≠ cid) && decide (1 ≤ sharedTagCount src c))).length :=
        (List.perm_insertionSort (rankLe src) _).length_eq
      rw [List.take_of_length_le (by rw [hlen']; exact hlen)]
      refine List.mem_map.2 ⟨c, ?_, rfl⟩
      refine (List.perm_insertionSort (rankLe src) _).mem_iff.2 ?_
      exact List.mem_filter.2 ⟨hcm, by simp [hne, hshared]⟩

theorem c5_witness : similarTo ⟨[], [], 0⟩ 0 3 = Except.error RError.notFound :=
  c5_similarTo_ranking.1 ⟨[], [], 0⟩ 0 3 rfl

/-- C10: in the campground router of `src/routes/campgrounds.js` (lines
638-643), every request that reaches `createCampground`, `updateCampground`
or `deleteCampground` passed `protect` and `authorize('admin')`, so its
credential is exactly an admin credential; each such mutation route's chain
is literally `protect, authorize(admin), controller`; and the two GET
routes invoke their read controller with no authentication at all. -/
theorem c10_mutations_admin_only :
    (∀ rt ∈ campgroundRouter, ∀ (auth : AuthCtx) (f : HFun),
      runChain rt.chain auth = some f → isMutation f = true →
      auth = some Role.admin) ∧
    (∀ rt ∈ campgroundRouter, rt.method = HMethod.get →
      ∃ f, runChain rt.chain none = some f ∧ isMutation f = false) ∧
    (∀ f, isMutation f = true → ∀ rt ∈ campgroundRouter,
      Handler.controller f ∈ rt.chain →
      rt.chain = [Handler.protect, Handler.authorize Role.admin,
        Handler.controller f]) := by
  refine ⟨?_, ?_, ?_⟩
  · intro rt hrt auth f hrun hmut
    revert hrun hmut
    fin_cases hrt <;> rcases auth with _ | r
    all_goals try cases r
    all_goals cases f
    all_goals decide
  · intro rt hrt hget
    fin_cases hrt <;> simp_all [runChain, isMutation]
  · intro f hf
    cases f
    · exact absurd hf (by decide)
    · exact absurd hf (by decide)
    · decide
    · decide
    · decide

theorem c10_witness : (some Role.admin : AuthCtx) = some Role.admin :=
  c10_mutations_admin_only.1
    ⟨HMethod.post, RPath.root,
      [Handler.protect, Handler.authorize Role.admin,
       Handler.controller HFun.createCampground]⟩
    (by decide) (some Role.admin) HFun.createCampground rfl rfl
